import Mathlib

/-!
Shallow embedding of `workbox-core`'s fetch orchestrator
(`src/packages/workbox-core/src/_private/fetchWrapper.ts`) and the tagged
error type (`src/packages/workbox-core/src/_private/WorkboxError.ts`).

Requests and responses carry a heap identity `id` beside their value
content: `clone()` yields a fresh identity over the same value, modelling
an independently-readable duplicate of a single-read body.  Plugin hooks
are pure functions that either return (possibly `none`, modelling a JS
`undefined` return) or throw an `Err`.  The orchestrator is written in
explicit state-passing style: a fresh-identity counter `nid` is threaded
through every clone, and a trace of observable events (hook invocations
and host-fetch calls) is accumulated.  Dev-only logging and assertions
(guarded by `NODE_ENV !== 'production'` in the source) are elided, as they
have no production-semantics effect.
-/

namespace Workbox

/-- Value content of a request: URL and mode (the source tests
`request.mode === 'navigate'` before calling the host fetch). -/
structure RequestVal where
  url : String
  mode : String
  deriving DecidableEq, Repr

/-- A `Request` instance: a heap identity (clones allocate a fresh one, so
reading one instance never consumes another) plus its value content. -/
structure Req where
  id : Nat
  val : RequestVal
  deriving DecidableEq, Repr

/-- A `Response` value (opaque for this core, identified by `rid`). -/
structure Response where
  rid : Nat
  deriving DecidableEq, Repr

/-- An error value thrown by a plugin hook or by the host fetch. -/
structure Err where
  eid : Nat
  deriving DecidableEq, Repr

/-- Runtime `TypeError` crashes the orchestrator itself can produce:
calling `.clone()` on an `undefined` current request (after a hook returned
nothing), or on the `null` `originalRequest` holder. -/
inductive CrashKind
  | cloneUndefined
  | cloneNullOriginal
  deriving DecidableEq, Repr

/-- A thrown JavaScript value: either a user-level `Err` (from a hook or
the host fetch) or a runtime crash. -/
inductive JErr
  | user (e : Err)
  | crash (k : CrashKind)
  deriving DecidableEq, Repr

/-- The optional `fetchOptions` configuration object (opaque). -/
structure FetchOpts where
  oid : Nat
  deriving DecidableEq, Repr

/-- The triggering event: whether it is a `FetchEvent`, and its
`preloadResponse` property — `none` when absent (falsy), otherwise the
value the promise resolves to (`none` modelling an empty resolution). -/
structure EventW where
  isFetchEvent : Bool
  preloadResponse : Option (Option Response)
  deriving DecidableEq, Repr

/-- Argument object passed to a `requestWillFetch` hook. -/
structure RWFArgs where
  request : Req
  event : Option EventW
  deriving DecidableEq, Repr

/-- Argument object passed to a `fetchDidSucceed` hook. -/
structure FDSArgs where
  event : Option EventW
  request : Req
  response : Option Response
  deriving DecidableEq, Repr

/-- Argument object passed to a `fetchDidFail` hook. -/
structure FDFArgs where
  error : Err
  event : Option EventW
  originalRequest : Req
  request : Req
  deriving DecidableEq, Repr

/-- A plugin: a subset of the three hooks this core dispatches.  Each hook
either throws an `Err` or returns; `requestWillFetch` and `fetchDidSucceed`
may return `none` (a JS `undefined` return). -/
structure Plugin where
  requestWillFetch : Option (RWFArgs → Except Err (Option Req)) := none
  fetchDidSucceed : Option (FDSArgs → Except Err (Option Response)) := none
  fetchDidFail : Option (FDFArgs → Except Err Unit) := none

/-- The details bag attached to a `WorkboxError`. -/
structure WorkboxErrorDetails where
  thrownError : Option JErr := none
  deriving DecidableEq, Repr

/-- Modelled from the spec: `messageGenerator` (its source is not under
`src/`; spec section 4.2 — an external collaborator that deterministically
produces a human-readable message from the code and the details bag via a
code-to-template lookup).  Claims depend only on determinism, never on the
message text. -/
def messageGenerator (errorCode : String) (_details : WorkboxErrorDetails) : String :=
  errorCode

/-- The tagged error class: `name` is set to the error code, `message` is
generated from code and details, `details` is stored. -/
structure WorkboxError where
  name : String
  message : String
  details : WorkboxErrorDetails
  deriving DecidableEq, Repr

/-- The `WorkboxError` constructor. -/
def WorkboxError.make (errorCode : String) (details : WorkboxErrorDetails) : WorkboxError :=
  ⟨errorCode, messageGenerator errorCode details, details⟩

/-- A value thrown out of the orchestrator: a plain JS error or a
`WorkboxError`. -/
inductive Thrown
  | js (e : JErr)
  | wb (w : WorkboxError)
  deriving DecidableEq, Repr

/-- Result of one orchestrator invocation: a resolved value (possibly
`undefined`, when the last `fetchDidSucceed` hook returned nothing) or a
thrown error. -/
inductive Outcome
  | ok (resp : Option Response)
  | err (t : Thrown)
  deriving DecidableEq, Repr

/-- Observable events of one invocation: hook invocations (with the exact
argument object each received and the plugin's registration index) and
host-fetch calls (with the request instance and the options passed). -/
inductive Ev
  | rwfCall (idx : Nat) (args : RWFArgs)
  | fetchCall (req : Req) (opts : Option FetchOpts)
  | fdsCall (idx : Nat) (args : FDSArgs)
  | fdfCall (idx : Nat) (args : FDFArgs)
  deriving DecidableEq, Repr

/-- Modelled from the spec: `pluginUtils.filter` / `selectImplementing`
(its source is not under `src/`; spec section 4.1 — filter the ordered
plugin list, preserving registration order, to those implementing the
named hook).  Here each kept plugin is paired with its registration
index so the dispatch order is observable in the trace. -/
def selectImplementing (capable : Plugin → Bool) : Nat → List Plugin → List (Nat × Plugin)
  | _, [] => []
  | i, p :: ps =>
    if capable p then (i, p) :: selectImplementing capable (i + 1) ps
    else selectImplementing capable (i + 1) ps

/-- Whether a plugin implements `fetchDidFail`. -/
def hasFetchDidFail (p : Plugin) : Bool :=
  p.fetchDidFail.isSome

/-- `failedFetchPlugins` of the source (line 75), with registration indices. -/
def failedFetchPluginsOf (plugins : List Plugin) : List (Nat × Plugin) :=
  selectImplementing hasFetchDidFail 0 plugins

/-- `originalRequest` of the source (line 81): a clone of the pristine
request iff some plugin implements `fetchDidFail`, else `null`. -/
def originalRequestOf (plugins : List Plugin) (request : Req) (nid : Nat) : Option Req :=
  if 0 < (failedFetchPluginsOf plugins).length then some ⟨nid, request.val⟩ else none

/-- Fresh-identity counter after the optional `originalRequest` snapshot. -/
def nidAfterSnapshot (plugins : List Plugin) (nid : Nat) : Nat :=
  if 0 < (failedFetchPluginsOf plugins).length then nid + 1 else nid

/-- The preload short-circuit condition (source lines 54-63): the event is
a `FetchEvent`, its `preloadResponse` is present (truthy), and the awaited
promise resolves to a non-empty response. -/
def preloadShortCircuit (event : Option EventW) : Option Response :=
  match event with
  | none => none
  | some ev =>
    if ev.isFetchEvent then
      match ev.preloadResponse with
      | none => none
      | some p => p
    else none

/-- The `requestWillFetch` loop (source lines 85-105).  For each plugin
implementing the hook: clone the current request (crashing with a
`TypeError` if a previous hook left it `undefined`), invoke the hook with
the clone and the event, and assign the hook's return value — whatever it
is, including `undefined` — as the new current request.  A hook throw
aborts the loop. -/
def runRWF (event : Option EventW) :
    Nat → List Plugin → Option Req → Nat → List Ev →
    Except JErr (Option Req) × Nat × List Ev
  | _, [], req, nid, tr => (.ok req, nid, tr)
  | i, p :: ps, req, nid, tr =>
    match p.requestWillFetch with
    | none => runRWF event (i + 1) ps req nid tr
    | some pluginMethod =>
      match req with
      | none => (.error (.crash .cloneUndefined), nid, tr)
      | some r =>
        let args : RWFArgs := ⟨⟨nid, r.val⟩, event⟩
        match pluginMethod args with
        | .error e => (.error (.user e), nid + 1, tr ++ [Ev.rwfCall i args])
        | .ok next => runRWF event (i + 1) ps next (nid + 1) (tr ++ [Ev.rwfCall i args])

/-- The `fetchDidSucceed` loop (source lines 133-152).  Every plugin
implementing the hook is invoked with the event, the (shared, uncloned)
`pluginFilteredRequest` instance and the current response; its return
value is assigned unconditionally as the new current response. -/
def runFDS (event : Option EventW) (pluginFilteredRequest : Req) :
    Nat → List Plugin → Option Response → List Ev →
    Except Err (Option Response) × List Ev
  | _, [], resp, tr => (.ok resp, tr)
  | i, p :: ps, resp, tr =>
    match p.fetchDidSucceed with
    | none => runFDS event pluginFilteredRequest (i + 1) ps resp tr
    | some pluginMethod =>
      let args : FDSArgs := ⟨event, pluginFilteredRequest, resp⟩
      match pluginMethod args with
      | .error e => (.error e, tr ++ [Ev.fdsCall i args])
      | .ok next =>
        runFDS event pluginFilteredRequest (i + 1) ps next (tr ++ [Ev.fdsCall i args])

/-- The `fetchDidFail` loop (source lines 161-168).  Each failure plugin
is invoked with the caught error, the event, a fresh clone of
`originalRequest` (a `TypeError` crash if that holder is `null`) and a
fresh clone of `pluginFilteredRequest`.  A hook throw aborts the loop and
propagates. -/
def runFDF (event : Option EventW) (error : Err) (originalRequest : Option Req)
    (pluginFilteredRequest : Req) :
    List (Nat × Plugin) → Nat → List Ev → Except JErr Unit × Nat × List Ev
  | [], nid, tr => (.ok (), nid, tr)
  | ip :: ps, nid, tr =>
    match ip.2.fetchDidFail with
    | none => runFDF event error originalRequest pluginFilteredRequest ps nid tr
    | some pluginMethod =>
      match originalRequest with
      | none => (.error (.crash .cloneNullOriginal), nid, tr)
      | some o =>
        let args : FDFArgs := ⟨error, event, ⟨nid, o.val⟩, ⟨nid + 1, pluginFilteredRequest.val⟩⟩
        match pluginMethod args with
        | .error e2 => (.error (.user e2), nid + 2, tr ++ [Ev.fdfCall ip.1 args])
        | .ok _ =>
          runFDF event error originalRequest pluginFilteredRequest ps (nid + 2)
            (tr ++ [Ev.fdfCall ip.1 args])

/-- The catch block of the transmission try (source lines 155-171): run the
failure-hook chain, then re-throw the caught error unchanged; a throw from
a failure hook (or the `null` dereference crash) propagates instead. -/
def runFailurePath (event : Option EventW) (error : Err) (originalRequest : Option Req)
    (pluginFilteredRequest : Req) (failedFetchPlugins : List (Nat × Plugin))
    (nid : Nat) (tr : List Ev) : Outcome × List Ev :=
  match runFDF event error originalRequest pluginFilteredRequest failedFetchPlugins nid tr with
  | (.ok _, _, tr1) => (.err (.js (.user error)), tr1)
  | (.error je, _, tr1) => (.err (.js je), tr1)

/-- Source lines 112-171: snapshot `pluginFilteredRequest` (a clone of the
post-pre-flight current request), transmit — with `fetchOptions` dropped
when the request's mode is `navigate` — then run the success chain, or on a
throw the failure chain. -/
def afterPreflight (fetchFn : Req → Option FetchOpts → Except Err Response)
    (event : Option EventW) (plugins : List Plugin) (fetchOptions : Option FetchOpts)
    (originalRequest : Option Req) (request : Req) (nid : Nat) (tr : List Ev) :
    Outcome × List Ev :=
  let pluginFilteredRequest : Req := ⟨nid, request.val⟩
  let fop : Option FetchOpts := if request.val.mode == "navigate" then none else fetchOptions
  let tr1 : List Ev := tr ++ [Ev.fetchCall request fop]
  match fetchFn request fop with
  | .error e =>
    runFailurePath event e originalRequest pluginFilteredRequest
      (failedFetchPluginsOf plugins) (nid + 1) tr1
  | .ok fetchResponse =>
    match runFDS event pluginFilteredRequest 0 plugins (some fetchResponse) tr1 with
    | (.ok finalResponse, tr2) => (.ok finalResponse, tr2)
    | (.error e, tr2) =>
      runFailurePath event e originalRequest pluginFilteredRequest
        (failedFetchPluginsOf plugins) (nid + 1) tr2

/-- Body of `wrappedFetch` once the request is a `Request` instance:
preload short-circuit, failure-plugin selection and `originalRequest`
snapshot, `requestWillFetch` chain (a throw, or the `TypeError` from
cloning an `undefined` current request inside the loop, is wrapped into a
`WorkboxError` with code `plugin-error-request-will-fetch`), then — after
the clone at source line 115, whose `TypeError` on an `undefined` current
request propagates raw — transmission and the post-flight chains. -/
def wrappedFetchCore (fetchFn : Req → Option FetchOpts → Except Err Response)
    (event : Option EventW) (plugins : List Plugin) (fetchOptions : Option FetchOpts)
    (request : Req) (nid : Nat) : Outcome × List Ev :=
  match preloadShortCircuit event with
  | some resp => (.ok (some resp), [])
  | none =>
    match runRWF event 0 plugins (some request) (nidAfterSnapshot plugins nid) [] with
    | (.error e, _, tr) =>
      (.err (.wb (WorkboxError.make "plugin-error-request-will-fetch" ⟨some e⟩)), tr)
    | (.ok none, _, tr) => (.err (.js (.crash .cloneUndefined)), tr)
    | (.ok (some r), nid2, tr) =>
      afterPreflight fetchFn event plugins fetchOptions
        (originalRequestOf plugins request nid) r nid2 tr

/-- The request argument: a URL string or a `Request` instance. -/
inductive RequestInput
  | str (s : String)
  | req (r : Req)
  deriving DecidableEq, Repr

/-- The options object of `wrappedFetch`. -/
structure WrappedFetchOptions where
  request : RequestInput
  event : Option EventW := none
  plugins : List Plugin := []
  fetchOptions : Option FetchOpts := none

/-- `wrappedFetch` (source lines 40-172), with the host fetch primitive
injected as `fetchFn` and `nid` seeding fresh heap identities (every input
instance is assumed to have identity below `nid`).  A URL string is first
normalized to a fresh `Request` with the default mode. -/
def wrappedFetch (fetchFn : Req → Option FetchOpts → Except Err Response)
    (o : WrappedFetchOptions) (nid : Nat) : Outcome × List Ev :=
  match o.request with
  | .str s => wrappedFetchCore fetchFn o.event o.plugins o.fetchOptions ⟨nid, s, "cors"⟩ (nid + 1)
  | .req r => wrappedFetchCore fetchFn o.event o.plugins o.fetchOptions r nid

/-- A plugin whose `requestWillFetch` hook replaces every request with `r`. -/
def rwfReplacePlugin (r : Req) : Plugin :=
  { requestWillFetch := some (fun _ => .ok (some r)) }

/-- A plugin whose `requestWillFetch` hook returns nothing (a JS
`undefined` return). -/
def voidRwfPlugin : Plugin :=
  { requestWillFetch := some (fun _ => .ok none) }

/-- Predicted trace of a `requestWillFetch` chain of replacement plugins:
the hook at index `i` receives a fresh clone (identity `nid + i`) of the
request the previous stage left current. -/
def rwfChainTrace (event : Option EventW) : Req → List Req → Nat → Nat → List Ev
  | _, [], _, _ => []
  | prev, r :: rs, i, nid =>
    Ev.rwfCall i ⟨⟨nid, prev.val⟩, event⟩ :: rwfChainTrace event r rs (i + 1) (nid + 1)

/-- The request current before hook `i` runs in a replacement chain:
the original request for `i = 0`, else the replacement installed by hook
`i - 1`. -/
def rwfPrevReq (r0 : Req) (replacements : List Req) : Nat → Req
  | 0 => r0
  | i + 1 => replacements.getD i r0

/-- A plugin whose `fetchDidSucceed` hook replaces every response with `s`. -/
def fdsReplacePlugin (s : Response) : Plugin :=
  { fetchDidSucceed := some (fun _ => .ok (some s)) }

/-- A plugin whose `fetchDidSucceed` hook returns nothing (a JS
`undefined` return). -/
def voidFdsPlugin : Plugin :=
  { fetchDidSucceed := some (fun _ => .ok none) }

/-- Predicted trace of a `fetchDidSucceed` chain of replacement plugins:
the hook at index `i` receives the response the previous stage left
current. -/
def fdsChainTrace (event : Option EventW) (pluginFilteredRequest : Req) :
    Option Response → List Response → Nat → List Ev
  | _, [], _ => []
  | cur, s :: ss, i =>
    Ev.fdsCall i ⟨event, pluginFilteredRequest, cur⟩ ::
      fdsChainTrace event pluginFilteredRequest (some s) ss (i + 1)

/-- Predicted trace of a completed `fetchDidFail` chain: the hook of
registration index `ip.1` receives the caught error, the event, a fresh
clone of the original request's value and a fresh clone of the filtered
request's value, two fresh identities per hook. -/
def fdfChainTrace (event : Option EventW) (error : Err) (origVal filtVal : RequestVal) :
    List (Nat × Plugin) → Nat → List Ev
  | [], _ => []
  | ip :: ps, nid =>
    Ev.fdfCall ip.1 ⟨error, event, ⟨nid, origVal⟩, ⟨nid + 1, filtVal⟩⟩ ::
      fdfChainTrace event error origVal filtVal ps (nid + 2)

/-- The transmission try block (source lines 117-155) ends by throwing the
error `e` with accumulated trace `tr1`: either the host fetch itself
throws `e` right after the fetch-call event, or the fetch succeeds and the
`fetchDidSucceed` chain throws `e`.  Both triggers enter the same failure
path (the catch at source line 155). -/
def tryBlockFails (fetchFn : Req → Option FetchOpts → Except Err Response)
    (event : Option EventW) (plugins : List Plugin) (fetchOptions : Option FetchOpts)
    (r : Req) (nid2 : Nat) (tr0 : List Ev) (e : Err) (tr1 : List Ev) : Prop :=
  (fetchFn r (if r.val.mode == "navigate" then none else fetchOptions) = .error e ∧
    tr1 = tr0 ++ [Ev.fetchCall r (if r.val.mode == "navigate" then none else fetchOptions)]) ∨
  ∃ resp0, fetchFn r (if r.val.mode == "navigate" then none else fetchOptions) = .ok resp0 ∧
    runFDS event ⟨nid2, r.val⟩ 0 plugins (some resp0)
      (tr0 ++ [Ev.fetchCall r (if r.val.mode == "navigate" then none else fetchOptions)]) =
      (.error e, tr1)

theorem selectImplementing_mem (capable : Plugin → Bool) :
    ∀ (i : Nat) (ps : List Plugin) (ip : Nat × Plugin),
      ip ∈ selectImplementing capable i ps → capable ip.2 = true := by
  intro i ps
  induction ps generalizing i with
  | nil => intro ip h; simp [selectImplementing] at h
  | cons p rest ih =>
    intro ip h
    by_cases hc : capable p
    · simp [selectImplementing, hc] at h
      rcases h with h | h
      · subst h; exact hc
      · exact ih (i + 1) ip h
    · simp [selectImplementing, hc] at h
      exact ih (i + 1) ip h

theorem selectImplementing_eq_nil (capable : Plugin → Bool) :
    ∀ (i : Nat) (ps : List Plugin), (∀ p ∈ ps, capable p = false) →
      selectImplementing capable i ps = [] := by
  intro i ps
  induction ps generalizing i with
  | nil => intro _; simp [selectImplementing]
  | cons p rest ih =>
    intro h
    have hp : capable p = false := h p (by simp)
    simp [selectImplementing, hp]
    exact ih (i + 1) (fun q hq => h q (by simp [hq]))

theorem runRWF_replaceChain (ev : Option EventW) (Rs : List Req) :
    ∀ (prev : Req) (i nid : Nat) (tr : List Ev),
      runRWF ev i (Rs.map rwfReplacePlugin) (some prev) nid tr =
        (.ok (some (Rs.getLastD prev)), nid + Rs.length, tr ++ rwfChainTrace ev prev Rs i nid) := by
  induction Rs with
  | nil => intro prev i nid tr; simp [runRWF, rwfChainTrace]
  | cons r rs ih =>
    intro prev i nid tr
    simp only [List.map_cons, runRWF, rwfReplacePlugin, rwfChainTrace, ih, List.getLastD_cons,
      List.length_cons, List.append_assoc, List.singleton_append, Prod.mk.injEq, true_and,
      and_true]
    omega

theorem runRWF_trace_mem (ev : Option EventW) :
    ∀ (i : Nat) (ps : List Plugin) (req : Option Req) (nid : Nat) (tr : List Ev) (x : Ev),
      x ∈ (runRWF ev i ps req nid tr).2.2 → x ∈ tr ∨ ∃ j a, x = Ev.rwfCall j a := by
  intro i ps
  induction ps generalizing i with
  | nil => intro req nid tr x h; simp [runRWF] at h; exact Or.inl h
  | cons p rest ih =>
    intro req nid tr x h
    rcases hp : p.requestWillFetch with _ | pluginMethod
    · simp only [runRWF, hp] at h
      exact ih (i + 1) req nid tr x h
    · rcases req with _ | r
      · simp only [runRWF, hp] at h
        exact Or.inl h
      · simp only [runRWF, hp] at h
        rcases hm : pluginMethod ⟨⟨nid, r.val⟩, ev⟩ with e | next
        · rw [hm] at h
          simp at h
          rcases h with h | h
          · exact Or.inl h
          · exact Or.inr ⟨i, _, h⟩
        · rw [hm] at h
          rcases ih (i + 1) next (nid + 1) _ x h with h1 | h1
          · simp at h1
            rcases h1 with h1 | h1
            · exact Or.inl h1
            · exact Or.inr ⟨i, _, h1⟩
          · exact Or.inr h1

theorem runFDS_trace_mem (ev : Option EventW) (q : Req) :
    ∀ (i : Nat) (ps : List Plugin) (resp : Option Response) (tr : List Ev) (x : Ev),
      x ∈ (runFDS ev q i ps resp tr).2 → x ∈ tr ∨ ∃ j a, x = Ev.fdsCall j a := by
  intro i ps
  induction ps generalizing i with
  | nil => intro resp tr x h; simp [runFDS] at h; exact Or.inl h
  | cons p rest ih =>
    intro resp tr x h
    rcases hp : p.fetchDidSucceed with _ | pluginMethod
    · simp only [runFDS, hp] at h
      exact ih (i + 1) resp tr x h
    · simp only [runFDS, hp] at h
      rcases hm : pluginMethod ⟨ev, q, resp⟩ with e | next
      · rw [hm] at h
        simp at h
        rcases h with h | h
        · exact Or.inl h
        · exact Or.inr ⟨i, _, h⟩
      · rw [hm] at h
        rcases ih (i + 1) next _ x h with h1 | h1
        · simp at h1
          rcases h1 with h1 | h1
          · exact Or.inl h1
          · exact Or.inr ⟨i, _, h1⟩
        · exact Or.inr h1

theorem runFDS_trace_append (ev : Option EventW) (q : Req) :
    ∀ (i : Nat) (ps : List Plugin) (resp : Option Response) (tr : List Ev),
      ∃ d, (runFDS ev q i ps resp tr).2 = tr ++ d := by
  intro i ps
  induction ps generalizing i with
  | nil => intro resp tr; exact ⟨[], by simp [runFDS]⟩
  | cons p rest ih =>
    intro resp tr
    rcases hp : p.fetchDidSucceed with _ | pluginMethod
    · simpa only [runFDS, hp] using ih (i + 1) resp tr
    · simp only [runFDS, hp]
      rcases hm : pluginMethod ⟨ev, q, resp⟩ with e | next

      · exact ⟨[Ev.fdsCall i ⟨ev, q, resp⟩], by simp⟩
      · rcases ih (i + 1) next (tr ++ [Ev.fdsCall i ⟨ev, q, resp⟩]) with ⟨d, hd⟩
        exact ⟨[Ev.fdsCall i ⟨ev, q, resp⟩] ++ d, by simp [hd]⟩

theorem runFDF_trace_append (ev : Option EventW) (e : Err) (o : Option Req) (q : Req) :
    ∀ (l : List (Nat × Plugin)) (nid : Nat) (tr : List Ev),
      ∃ d, (runFDF ev e o q l nid tr).2.2 = tr ++ d := by
  intro l
  induction l with
  | nil => intro nid tr; exact ⟨[], by simp [runFDF]⟩
  | cons ip rest ih =>
    intro nid tr
    rcases hp : ip.2.fetchDidFail with _ | pluginMethod
    · simpa only [runFDF, hp] using ih nid tr
    · rcases o with _ | og
      · exact ⟨[], by simp [runFDF, hp]⟩
      · simp only [runFDF, hp]
        rcases hm : pluginMethod ⟨e, ev, ⟨nid, og.val⟩, ⟨nid + 1, q.val⟩⟩ with e2 | u
        · exact ⟨[Ev.fdfCall ip.1 ⟨e, ev, ⟨nid, og.val⟩, ⟨nid + 1, q.val⟩⟩], by simp⟩
        · rcases ih (nid + 2) (tr ++ [Ev.fdfCall ip.1 ⟨e, ev, ⟨nid, og.val⟩, ⟨nid + 1, q.val⟩⟩])
            with ⟨d, hd⟩
          exact ⟨[Ev.fdfCall ip.1 ⟨e, ev, ⟨nid, og.val⟩, ⟨nid + 1, q.val⟩⟩] ++ d, by simp [hd]⟩

theorem runFDS_replaceChain (ev : Option EventW) (q : Req) (Ss : List Response) :
    ∀ (cur : Option Response) (i : Nat) (tr : List Ev),
      runFDS ev q i (Ss.map fdsReplacePlugin) cur tr =
        (.ok (Ss.foldl (fun _ s => some s) cur), tr ++ fdsChainTrace ev q cur Ss i) := by
  induction Ss with
  | nil => intro cur i tr; simp [runFDS, fdsChainTrace]
  | cons s ss ih =>
    intro cur i tr
    simp only [List.map_cons, runFDS, fdsReplacePlugin, fdsChainTrace, ih, List.foldl_cons,
      List.append_assoc, List.singleton_append]

theorem foldl_replace_getLastD (d : Response) (Ss : List Response) :
    Ss.foldl (fun _ s => (some s : Option Response)) (some d) = some (Ss.getLastD d) := by
  induction Ss generalizing d with
  | nil => simp
  | cons s ss ih =>
    simp only [List.foldl_cons]
    rw [List.getLastD_cons]
    exact ih s

theorem runFDF_allOk (ev : Option EventW) (e : Err) (o q : Req) :
    ∀ (l : List (Nat × Plugin)) (nid : Nat) (tr : List Ev),
      (∀ ip ∈ l, ∃ f, ip.2.fetchDidFail = some f ∧ ∀ a, f a = Except.ok ()) →
      (runFDF ev e (some o) q l nid tr).1 = .ok () ∧
        (runFDF ev e (some o) q l nid tr).2.2 =
          tr ++ fdfChainTrace ev e o.val q.val l nid := by
  intro l
  induction l with
  | nil => intro nid tr _; simp [runFDF, fdfChainTrace]
  | cons ip rest ih =>
    intro nid tr hall
    obtain ⟨f, hf, hok⟩ := hall ip (by simp)
    have ihr := ih (nid + 2) (tr ++ [Ev.fdfCall ip.1 ⟨e, ev, ⟨nid, o.val⟩, ⟨nid + 1, q.val⟩⟩])
      (fun x hx => hall x (by simp [hx]))
    simp only [runFDF, hf, hok, fdfChainTrace, List.append_assoc, List.singleton_append]
    exact ⟨ihr.1, by rw [ihr.2]; simp⟩

theorem runFDF_throwAt (ev : Option EventW) (e e2 : Err) (o q : Req) (k : Nat) (pT : Plugin)
    (fT : FDFArgs → Except Err Unit) (post : List (Nat × Plugin)) :
    ∀ (pre : List (Nat × Plugin)) (nid : Nat) (tr : List Ev),
      (∀ ip ∈ pre, ∃ f, ip.2.fetchDidFail = some f ∧ ∀ a, f a = Except.ok ()) →
      pT.fetchDidFail = some fT → (∀ a, fT a = .error e2) →
      (runFDF ev e (some o) q (pre ++ (k, pT) :: post) nid tr).1 = .error (.user e2) ∧
        (runFDF ev e (some o) q (pre ++ (k, pT) :: post) nid tr).2.2 =
          tr ++ fdfChainTrace ev e o.val q.val (pre ++ [(k, pT)]) nid := by
  intro pre
  induction pre with
  | nil =>
    intro nid tr _ hT hTe
    simp [runFDF, hT, hTe, fdfChainTrace]
  | cons ip rest ih =>
    intro nid tr hall hT hTe
    obtain ⟨f, hf, hok⟩ := hall ip (by simp)
    have ihr := ih (nid + 2) (tr ++ [Ev.fdfCall ip.1 ⟨e, ev, ⟨nid, o.val⟩, ⟨nid + 1, q.val⟩⟩])
      (fun x hx => hall x (by simp [hx])) hT hTe
    simp only [List.cons_append, runFDF, hf, hok, fdfChainTrace, List.append_assoc,
      List.singleton_append]
    exact ⟨ihr.1, ihr.2.trans (by simp [fdfChainTrace])⟩

theorem runRWF_noHooks (ev : Option EventW) :
    ∀ (i : Nat) (ps : List Plugin) (req : Option Req) (nid : Nat) (tr : List Ev),
      (∀ p ∈ ps, p.requestWillFetch = none) →
      runRWF ev i ps req nid tr = (.ok req, nid, tr) := by
  intro i ps
  induction ps generalizing i with
  | nil => intro req nid tr _; simp [runRWF]
  | cons p rest ih =>
    intro req nid tr h
    have hp : p.requestWillFetch = none := h p (by simp)
    simp only [runRWF, hp]
    exact ih (i + 1) req nid tr (fun q hq => h q (by simp [hq]))

theorem runFDS_noHooks (ev : Option EventW) (q : Req) :
    ∀ (i : Nat) (ps : List Plugin) (resp : Option Response) (tr : List Ev),
      (∀ p ∈ ps, p.fetchDidSucceed = none) →
      runFDS ev q i ps resp tr = (.ok resp, tr) := by
  intro i ps
  induction ps generalizing i with
  | nil => intro resp tr _; simp [runFDS]
  | cons p rest ih =>
    intro resp tr h
    have hp : p.fetchDidSucceed = none := h p (by simp)
    simp only [runFDS, hp]
    exact ih (i + 1) resp tr (fun x hx => h x (by simp [hx]))

/-- Claim C4: when the triggering event is a navigation-preload-capable
event whose preload promise resolves to a non-empty response, that preload
response is returned verbatim and the trace is empty — no
`requestWillFetch` hook, no `fetchDidSucceed` hook and no network
transmission runs in that invocation. -/
theorem claim4_preload_short_circuit
    (fetchFn : Req → Option FetchOpts → Except Err Response) (inp : RequestInput)
    (ps : List Plugin) (fo : Option FetchOpts) (resp : Response) (nid : Nat) :
    wrappedFetch fetchFn ⟨inp, some ⟨true, some (some resp)⟩, ps, fo⟩ nid =
      (.ok (some resp), []) := by
  cases inp <;> simp [wrappedFetch, wrappedFetchCore, preloadShortCircuit]

/-- Claim C10: when transmission succeeds and a `fetchDidSucceed` hook
returns no value, the hook's return is assigned unconditionally: the
current response becomes the absent value, the next `fetchDidSucceed` hook
receives that absent value as its `response`, and the absent value is what
the orchestrator resolves with. -/
theorem claim10_fds_void_assigned (r0 : Req) (resp0 : Response) (fo : Option FetchOpts)
    (nid : Nat) :
    wrappedFetch (fun _ _ => .ok resp0)
        ⟨.req r0, none, [voidFdsPlugin, voidFdsPlugin], fo⟩ nid =
      (.ok none,
       [Ev.fetchCall r0 (if r0.val.mode == "navigate" then none else fo),
        Ev.fdsCall 0 ⟨none, ⟨nid, r0.val⟩, some resp0⟩,
        Ev.fdsCall 1 ⟨none, ⟨nid, r0.val⟩, none⟩]) := by
  simp [wrappedFetch, wrappedFetchCore, preloadShortCircuit, nidAfterSnapshot,
    failedFetchPluginsOf, selectImplementing, hasFetchDidFail, voidFdsPlugin,
    originalRequestOf, runRWF, afterPreflight, runFDS]

/-- Claim C5, counterexample: with a single `requestWillFetch` hook that
returns nothing, the current request does not stay unchanged for the
subsequent steps — the void return is assigned, so the clone of the (now
absent) current request throws a `TypeError` and no transmission ever
happens, where the claim would have the unchanged request transmitted. -/
theorem claim5_counterexample :
    wrappedFetch (fun _ _ => .ok ⟨7⟩)
        ⟨.req ⟨0, "https://example.com/a", "cors"⟩, none, [voidRwfPlugin], none⟩ 1 =
      (.err (.js (.crash .cloneUndefined)),
       [Ev.rwfCall 0 ⟨⟨1, ⟨"https://example.com/a", "cors"⟩⟩, none⟩]) ∧
    ∀ q oo, Ev.fetchCall q oo ∉ (wrappedFetch (fun _ _ => .ok ⟨7⟩)
        ⟨.req ⟨0, "https://example.com/a", "cors"⟩, none, [voidRwfPlugin], none⟩ 1).2 := by
  constructor
  · rfl
  · intro q oo
    simp [wrappedFetch, wrappedFetchCore, preloadShortCircuit, nidAfterSnapshot,
      failedFetchPluginsOf, selectImplementing, hasFetchDidFail, voidRwfPlugin,
      originalRequestOf, runRWF]

theorem runRWF_none (ev : Option EventW) :
    ∀ (i : Nat) (ps : List Plugin) (nid : Nat) (tr : List Ev),
      runRWF ev i ps none nid tr =
        ((if ps.any (fun p => p.requestWillFetch.isSome)
          then .error (.crash .cloneUndefined) else .ok none), nid, tr) := by
  intro i ps
  induction ps generalizing i with
  | nil => intro nid tr; simp [runRWF]
  | cons p rest ih =>
    intro nid tr
    rcases hp : p.requestWillFetch with _ | f
    · simp [runRWF, hp, ih (i + 1), List.any_cons]
    · simp [runRWF, hp, List.any_cons]

/-- Claim C5, amended: a `requestWillFetch` hook's return value is
assigned unconditionally, so a hook that returns nothing replaces the
current request with the absent value; the invocation then fails with a
`TypeError` at the next clone of the current request instead of
proceeding with the previous request — wrapped into the
`plugin-error-request-will-fetch` `WorkboxError` (as `thrownError`) when a
later plugin implements `requestWillFetch`, so the clone happens inside
the hook loop's try, and raw at the post-chain clone otherwise.  In both
cases the void hook's own invocation is the last trace event: no further
hook runs and no transmission occurs. -/
theorem claim5_amended_void_rwf_crashes (r0 : Req) (ps2 : List Plugin)
    (fetchFn : Req → Option FetchOpts → Except Err Response) (fo : Option FetchOpts)
    (nid : Nat) :
    wrappedFetch fetchFn ⟨.req r0, none, voidRwfPlugin :: ps2, fo⟩ nid =
      ((if ps2.any (fun p => p.requestWillFetch.isSome) then
          .err (.wb (WorkboxError.make "plugin-error-request-will-fetch"
            ⟨some (.crash .cloneUndefined)⟩))
        else .err (.js (.crash .cloneUndefined))),
       [Ev.rwfCall 0 ⟨⟨nidAfterSnapshot (voidRwfPlugin :: ps2) nid, r0.val⟩, none⟩]) := by
  show wrappedFetchCore fetchFn none (voidRwfPlugin :: ps2) fo r0 nid = _
  have hr : runRWF none 0 (voidRwfPlugin :: ps2) (some r0)
      (nidAfterSnapshot (voidRwfPlugin :: ps2) nid) [] =
      ((if ps2.any (fun p => p.requestWillFetch.isSome)
        then .error (.crash .cloneUndefined) else .ok none),
       nidAfterSnapshot (voidRwfPlugin :: ps2) nid + 1,
       [Ev.rwfCall 0 ⟨⟨nidAfterSnapshot (voidRwfPlugin :: ps2) nid, r0.val⟩, none⟩]) := by
    simp only [runRWF, voidRwfPlugin]
    rw [runRWF_none]
    simp
  simp only [wrappedFetchCore, preloadShortCircuit, hr]
  cases hany : ps2.any (fun p => p.requestWillFetch.isSome) <;> simp [hany]

/-- Claim C1: with N `requestWillFetch` hooks where hook `i` replaces the
request with `R_i`, the host fetch call receives exactly `R_N` (the last
replacement, as the very instance the hook returned), and each hook `i` is
invoked with a duplicate of `R_{i-1}`: same value content, but a freshly
allocated instance identity (`nid + i`), distinct from the identity of the
retained copy the next stage reads — so reading the hook's copy cannot
consume the next stage's copy. -/
theorem claim1_rwf_chain (r0 : Req) (Rs : List Req) (resp0 : Response)
    (fo : Option FetchOpts) (nid : Nat) (hne : Rs ≠ [])
    (hr0 : r0.id < nid) (hRs : ∀ r ∈ Rs, r.id < nid) :
    wrappedFetch (fun _ _ => .ok resp0) ⟨.req r0, none, Rs.map rwfReplacePlugin, fo⟩ nid =
      (.ok (some resp0),
       rwfChainTrace none r0 Rs 0 nid ++
         [Ev.fetchCall (Rs.getLastD r0)
           (if (Rs.getLastD r0).val.mode == "navigate" then none else fo)]) ∧
    ∀ i, i < Rs.length → nid + i ≠ (rwfPrevReq r0 Rs i).id := by
  have hffp : failedFetchPluginsOf (Rs.map rwfReplacePlugin) = [] := by
    apply selectImplementing_eq_nil
    intro p hp
    simp only [List.mem_map] at hp
    obtain ⟨r, _, rfl⟩ := hp
    simp [hasFetchDidFail, rwfReplacePlugin]
  have hfds : ∀ p ∈ Rs.map rwfReplacePlugin, p.fetchDidSucceed = none := by
    intro p hp
    simp only [List.mem_map] at hp
    obtain ⟨r, _, rfl⟩ := hp
    simp [rwfReplacePlugin]
  constructor
  · simp only [wrappedFetch, wrappedFetchCore, preloadShortCircuit, nidAfterSnapshot,
      originalRequestOf, hffp, List.length_nil, Nat.lt_irrefl, if_false]
    rw [runRWF_replaceChain]
    simp only [afterPreflight, List.nil_append]
    rw [runFDS_noHooks _ _ _ _ _ _ hfds]
  · intro i hi
    match i with
    | 0 =>
      simp only [rwfPrevReq, Nat.add_zero]
      omega
    | Nat.succ j =>
      have hj : j < Rs.length := by omega
      have hmem : Rs.getD j r0 ∈ Rs := by
        rw [List.getD_eq_getElem Rs r0 hj]
        exact List.getElem_mem hj
      have := hRs _ hmem
      simp only [rwfPrevReq]
      omega

/-- Claim C6: when transmission succeeds, a replacement response returned
by a `fetchDidSucceed` hook — not the transmission result — is what every
subsequent `fetchDidSucceed` hook receives as its `response` (hook `i + 1`
receives the replacement installed by hook `i`) and what the orchestrator
ultimately returns to the caller (the last replacement). -/
theorem claim6_fds_replacement_propagates (r0 : Req) (resp0 : Response) (Ss : List Response)
    (fo : Option FetchOpts) (nid : Nat) (hne : Ss ≠ []) :
    wrappedFetch (fun _ _ => .ok resp0) ⟨.req r0, none, Ss.map fdsReplacePlugin, fo⟩ nid =
      (.ok (some (Ss.getLastD resp0)),
       Ev.fetchCall r0 (if r0.val.mode == "navigate" then none else fo) ::
         fdsChainTrace none ⟨nid, r0.val⟩ (some resp0) Ss 0) := by
  have hffp : failedFetchPluginsOf (Ss.map fdsReplacePlugin) = [] := by
    apply selectImplementing_eq_nil
    intro p hp
    simp only [List.mem_map] at hp
    obtain ⟨s, _, rfl⟩ := hp
    simp [hasFetchDidFail, fdsReplacePlugin]
  have hrwf : ∀ p ∈ Ss.map fdsReplacePlugin, p.requestWillFetch = none := by
    intro p hp
    simp only [List.mem_map] at hp
    obtain ⟨s, _, rfl⟩ := hp
    simp [fdsReplacePlugin]
  simp only [wrappedFetch, wrappedFetchCore, preloadShortCircuit, nidAfterSnapshot,
    originalRequestOf, hffp, List.length_nil, Nat.lt_irrefl, if_false]
  rw [runRWF_noHooks _ _ _ _ _ _ hrwf]
  simp only [afterPreflight]
  rw [runFDS_replaceChain]
  simp [foldl_replace_getLastD]

theorem wrappedFetchCore_preflight_ok
    (fetchFn : Req → Option FetchOpts → Except Err Response) (ev : Option EventW)
    (ps : List Plugin) (fo : Option FetchOpts) (r0 r : Req) (nid nid2 : Nat) (tr0 : List Ev)
    (hpre : preloadShortCircuit ev = none)
    (hrwf : runRWF ev 0 ps (some r0) (nidAfterSnapshot ps nid) [] = (.ok (some r), nid2, tr0)) :
    wrappedFetchCore fetchFn ev ps fo r0 nid =
      afterPreflight fetchFn ev ps fo (originalRequestOf ps r0 nid) r nid2 tr0 := by
  simp only [wrappedFetchCore, hpre, hrwf]

theorem wrappedFetchCore_preflight_error
    (fetchFn : Req → Option FetchOpts → Except Err Response) (ev : Option EventW)
    (ps : List Plugin) (fo : Option FetchOpts) (r0 : Req) (nid nid2 : Nat) (tr0 : List Ev)
    (e : JErr) (hpre : preloadShortCircuit ev = none)
    (hrwf : runRWF ev 0 ps (some r0) (nidAfterSnapshot ps nid) [] = (.error e, nid2, tr0)) :
    wrappedFetchCore fetchFn ev ps fo r0 nid =
      (.err (.wb (WorkboxError.make "plugin-error-request-will-fetch" ⟨some e⟩)), tr0) := by
  simp only [wrappedFetchCore, hpre, hrwf]

/-- Claim C3: when a `requestWillFetch` hook throws `E`, the orchestrator
fails with a tagged `WorkboxError` whose code (its `name`) is
`plugin-error-request-will-fetch` and whose details carry `E` as
`thrownError`; the trace contains no host-fetch call and no `fetchDidFail`
hook invocation for this failure. -/
theorem claim3_rwf_throw_wrapped
    (fetchFn : Req → Option FetchOpts → Except Err Response) (ev : Option EventW)
    (ps : List Plugin) (fo : Option FetchOpts) (r0 : Req) (nid nid2 : Nat) (tr0 : List Ev)
    (e : Err) (hpre : preloadShortCircuit ev = none)
    (hrwf : runRWF ev 0 ps (some r0) (nidAfterSnapshot ps nid) [] =
      (.error (.user e), nid2, tr0)) :
    wrappedFetch fetchFn ⟨.req r0, ev, ps, fo⟩ nid =
      (.err (.wb (WorkboxError.make "plugin-error-request-will-fetch" ⟨some (.user e)⟩)), tr0) ∧
    (∀ q oo, Ev.fetchCall q oo ∉ tr0) ∧ ∀ j a, Ev.fdfCall j a ∉ tr0 := by
  have h22 : (runRWF ev 0 ps (some r0) (nidAfterSnapshot ps nid) []).2.2 = tr0 := by
    rw [hrwf]
  refine ⟨?_, ?_, ?_⟩
  · show wrappedFetchCore fetchFn ev ps fo r0 nid = _
    exact wrappedFetchCore_preflight_error fetchFn ev ps fo r0 nid nid2 tr0 _ hpre hrwf
  · intro q oo hmem
    rw [← h22] at hmem
    rcases runRWF_trace_mem ev 0 ps (some r0) _ [] _ hmem with h | ⟨j, a, h⟩
    · simp at h
    · cases h
  · intro j a hmem
    rw [← h22] at hmem
    rcases runRWF_trace_mem ev 0 ps (some r0) _ [] _ hmem with h | ⟨j2, a2, h⟩
    · simp at h
    · cases h

/-- Claim C7: whenever the invocation reaches the transmission step, the
host fetch primitive is called with the current request and — when that
request's mode indicates a top-level navigation — no configuration at all,
the supplied `fetchOptions` being ignored; otherwise the supplied
`fetchOptions`, if any, is passed through unmodified. -/
theorem claim7_navigate_ignores_options
    (fetchFn : Req → Option FetchOpts → Except Err Response) (ev : Option EventW)
    (ps : List Plugin) (fo : Option FetchOpts) (r0 r : Req) (nid nid2 : Nat) (tr0 : List Ev)
    (hpre : preloadShortCircuit ev = none)
    (hrwf : runRWF ev 0 ps (some r0) (nidAfterSnapshot ps nid) [] =
      (.ok (some r), nid2, tr0)) :
    ∃ rest, (wrappedFetch fetchFn ⟨.req r0, ev, ps, fo⟩ nid).2 =
      tr0 ++ Ev.fetchCall r (if r.val.mode == "navigate" then none else fo) :: rest := by
  have hcore : wrappedFetch fetchFn ⟨.req r0, ev, ps, fo⟩ nid =
      afterPreflight fetchFn ev ps fo (originalRequestOf ps r0 nid) r nid2 tr0 :=
    wrappedFetchCore_preflight_ok fetchFn ev ps fo r0 r nid nid2 tr0 hpre hrwf
  rw [hcore]
  simp only [afterPreflight]
  rcases hf : fetchFn r (if r.val.mode == "navigate" then none else fo) with e | resp0
  · simp only [hf]
    rcases hfd : runFDF ev e (originalRequestOf ps r0 nid) ⟨nid2, r.val⟩
        (failedFetchPluginsOf ps) (nid2 + 1)
        (tr0 ++ [Ev.fetchCall r (if r.val.mode == "navigate" then none else fo)])
      with ⟨res, n2, tr2⟩
    have hap := runFDF_trace_append ev e (originalRequestOf ps r0 nid) ⟨nid2, r.val⟩
      (failedFetchPluginsOf ps) (nid2 + 1)
      (tr0 ++ [Ev.fetchCall r (if r.val.mode == "navigate" then none else fo)])
    rw [hfd] at hap
    rcases hap with ⟨d, hd⟩
    refine ⟨d, ?_⟩
    cases res <;>
      (simp only [runFailurePath, hfd]; simp at hd; simp [hd])
  · simp only [hf]
    rcases hfds0 : runFDS ev ⟨nid2, r.val⟩ 0 ps (some resp0)
        (tr0 ++ [Ev.fetchCall r (if r.val.mode == "navigate" then none else fo)])
      with ⟨res2, tr2⟩
    have hap := runFDS_trace_append ev ⟨nid2, r.val⟩ 0 ps (some resp0)
      (tr0 ++ [Ev.fetchCall r (if r.val.mode == "navigate" then none else fo)])
    rw [hfds0] at hap
    rcases hap with ⟨d, hd⟩
    simp at hd
    cases res2 with
    | error e2 =>
      rcases hfd : runFDF ev e2 (originalRequestOf ps r0 nid) ⟨nid2, r.val⟩
          (failedFetchPluginsOf ps) (nid2 + 1) tr2 with ⟨res, n2, tr3⟩
      have hap2 := runFDF_trace_append ev e2 (originalRequestOf ps r0 nid) ⟨nid2, r.val⟩
        (failedFetchPluginsOf ps) (nid2 + 1) tr2
      rw [hfd] at hap2
      rcases hap2 with ⟨d2, hd2⟩
      simp at hd2
      refine ⟨d ++ d2, ?_⟩
      cases res <;>
        (simp only [hfds0, runFailurePath, hfd]; simp [hd, hd2])
    | ok respF =>
      exact ⟨d, by simp only [hfds0]; simp [hd]⟩

theorem runFailurePath_allOk (ev : Option EventW) (e : Err) (ps : List Plugin)
    (r0 : Req) (nid : Nat) (pfr : Req) (nidf : Nat) (tr1 : List Ev)
    (hok : ∀ ip ∈ failedFetchPluginsOf ps, ∀ f, ip.2.fetchDidFail = some f →
      ∀ a, f a = Except.ok ()) :
    runFailurePath ev e (originalRequestOf ps r0 nid) pfr (failedFetchPluginsOf ps) nidf tr1 =
      (.err (.js (.user e)),
       tr1 ++ fdfChainTrace ev e r0.val pfr.val (failedFetchPluginsOf ps) nidf) := by
  by_cases hffp : failedFetchPluginsOf ps = []
  · simp only [hffp, runFailurePath, runFDF, fdfChainTrace, List.append_nil]
  · have horig : originalRequestOf ps r0 nid = some ⟨nid, r0.val⟩ := by
      simp only [originalRequestOf]
      rw [if_pos (List.length_pos.mpr hffp)]
    have hall : ∀ ip ∈ failedFetchPluginsOf ps,
        ∃ f, ip.2.fetchDidFail = some f ∧ ∀ a, f a = Except.ok () := by
      intro ip hip
      have hs := selectImplementing_mem hasFetchDidFail 0 ps ip hip
      rcases ho : ip.2.fetchDidFail with _ | f
      · rw [hasFetchDidFail, ho] at hs; simp at hs
      · exact ⟨f, rfl, fun a => hok ip hip f ho a⟩
    have hfd := runFDF_allOk ev e ⟨nid, r0.val⟩ pfr (failedFetchPluginsOf ps) nidf tr1 hall
    rw [horig]
    rcases hfdeq : runFDF ev e (some ⟨nid, r0.val⟩) pfr (failedFetchPluginsOf ps) nidf tr1
      with ⟨res, n2, tr2⟩
    rw [hfdeq] at hfd
    have h1 : res = .ok () := hfd.1
    have h2 : tr2 = tr1 ++ fdfChainTrace ev e r0.val pfr.val (failedFetchPluginsOf ps) nidf :=
      hfd.2
    subst h1
    simp only [runFailurePath, hfdeq]
    rw [h2]

/-- Claim C2: when the transmission — or a `fetchDidSucceed` hook run on
its result — throws `E` and no `fetchDidFail` hook itself throws, every
plugin implementing `fetchDidFail` is invoked exactly once, in
registration order (the trace lists exactly the selected plugins, by
registration index, in order), each receiving the error `E`, the event, a
fresh duplicate of the pristine original request (a new identity over the
pre-pre-flight value) and a fresh duplicate of the post-pre-flight
filtered request (a new identity over the as-sent value); after the full
chain the orchestrator throws exactly `E` again — the same value, not a
wrapper. -/
theorem claim2_failure_chain
    (fetchFn : Req → Option FetchOpts → Except Err Response) (ev : Option EventW)
    (ps : List Plugin) (fo : Option FetchOpts) (r0 r : Req) (nid nid2 : Nat)
    (tr0 tr1 : List Ev) (e : Err) (hpre : preloadShortCircuit ev = none)
    (hrwf : runRWF ev 0 ps (some r0) (nidAfterSnapshot ps nid) [] =
      (.ok (some r), nid2, tr0))
    (htrig : tryBlockFails fetchFn ev ps fo r nid2 tr0 e tr1)
    (hok : ∀ ip ∈ failedFetchPluginsOf ps, ∀ f, ip.2.fetchDidFail = some f →
      ∀ a, f a = Except.ok ()) :
    wrappedFetch fetchFn ⟨.req r0, ev, ps, fo⟩ nid =
      (.err (.js (.user e)),
       tr1 ++ fdfChainTrace ev e r0.val r.val (failedFetchPluginsOf ps) (nid2 + 1)) := by
  have hcore : wrappedFetch fetchFn ⟨.req r0, ev, ps, fo⟩ nid =
      afterPreflight fetchFn ev ps fo (originalRequestOf ps r0 nid) r nid2 tr0 :=
    wrappedFetchCore_preflight_ok fetchFn ev ps fo r0 r nid nid2 tr0 hpre hrwf
  rw [hcore]
  rcases htrig with ⟨hfetch, htr1⟩ | ⟨resp0, hfetch, hfds⟩
  · subst htr1
    simp only [afterPreflight, hfetch]
    exact runFailurePath_allOk ev e ps r0 nid ⟨nid2, r.val⟩ (nid2 + 1) _ hok
  · simp only [afterPreflight, hfetch, hfds]
    exact runFailurePath_allOk ev e ps r0 nid ⟨nid2, r.val⟩ (nid2 + 1) tr1 hok

/-- Claim C8: in the failure path, a `fetchDidFail` hook that throws makes
its exception propagate to the caller — pre-empting the re-throw of the
original transmission error — and the failure hooks registered after it
are not invoked: the trace ends at the throwing hook's invocation. -/
theorem claim8_fdf_throw_preempts
    (fetchFn : Req → Option FetchOpts → Except Err Response) (ev : Option EventW)
    (ps : List Plugin) (fo : Option FetchOpts) (r0 r : Req) (nid nid2 : Nat) (tr0 : List Ev)
    (e e2 : Err) (k : Nat) (pT : Plugin) (fT : FDFArgs → Except Err Unit)
    (pre post : List (Nat × Plugin))
    (hpre : preloadShortCircuit ev = none)
    (hrwf : runRWF ev 0 ps (some r0) (nidAfterSnapshot ps nid) [] =
      (.ok (some r), nid2, tr0))
    (hfetch : fetchFn r (if r.val.mode == "navigate" then none else fo) = .error e)
    (hsplit : failedFetchPluginsOf ps = pre ++ (k, pT) :: post)
    (hpreok : ∀ ip ∈ pre, ∀ f, ip.2.fetchDidFail = some f → ∀ a, f a = Except.ok ())
    (hT : pT.fetchDidFail = some fT) (hTe : ∀ a, fT a = .error e2) :
    wrappedFetch fetchFn ⟨.req r0, ev, ps, fo⟩ nid =
      (.err (.js (.user e2)),
       tr0 ++ Ev.fetchCall r (if r.val.mode == "navigate" then none else fo) ::
         fdfChainTrace ev e r0.val r.val (pre ++ [(k, pT)]) (nid2 + 1)) := by
  have hcore : wrappedFetch fetchFn ⟨.req r0, ev, ps, fo⟩ nid =
      afterPreflight fetchFn ev ps fo (originalRequestOf ps r0 nid) r nid2 tr0 :=
    wrappedFetchCore_preflight_ok fetchFn ev ps fo r0 r nid nid2 tr0 hpre hrwf
  rw [hcore]
  simp only [afterPreflight, hfetch]
  have hne : failedFetchPluginsOf ps ≠ [] := by
    rw [hsplit]; simp
  have horig : originalRequestOf ps r0 nid = some ⟨nid, r0.val⟩ := by
    simp only [originalRequestOf]
    rw [if_pos (List.length_pos.mpr hne)]
  have hallpre : ∀ ip ∈ pre, ∃ f, ip.2.fetchDidFail = some f ∧ ∀ a, f a = Except.ok () := by
    intro ip hip
    have hmem : ip ∈ failedFetchPluginsOf ps := by
      rw [hsplit]; exact List.mem_append.mpr (Or.inl hip)
    have hs := selectImplementing_mem hasFetchDidFail 0 ps ip hmem
    rcases ho : ip.2.fetchDidFail with _ | f
    · rw [hasFetchDidFail, ho] at hs; simp at hs
    · exact ⟨f, rfl, fun a => hpreok ip hip f ho a⟩
  have hfd := runFDF_throwAt ev e e2 ⟨nid, r0.val⟩ ⟨nid2, r.val⟩ k pT fT post pre
    (nid2 + 1) (tr0 ++ [Ev.fetchCall r (if r.val.mode == "navigate" then none else fo)])
    hallpre hT hTe
  rw [horig, hsplit]
  rcases hfdeq : runFDF ev e (some ⟨nid, r0.val⟩) ⟨nid2, r.val⟩ (pre ++ (k, pT) :: post)
      (nid2 + 1) (tr0 ++ [Ev.fetchCall r (if r.val.mode == "navigate" then none else fo)])
    with ⟨res, n2, tr2⟩
  rw [hfdeq] at hfd
  have h1 : res = .error (.user e2) := hfd.1
  have h2 : tr2 = (tr0 ++ [Ev.fetchCall r (if r.val.mode == "navigate" then none else fo)]) ++
      fdfChainTrace ev e r0.val r.val (pre ++ [(k, pT)]) (nid2 + 1) := hfd.2
  subst h1
  simp only [runFailurePath, hfdeq]
  rw [h2]
  simp

/-- Claim C9: when no plugin implements `fetchDidFail`, the selected
failure-plugin list is empty, so the failure loop never runs a body: no
`fetchDidFail` invocation appears in the trace and the orchestrator can
never fail with the `TypeError` that dereferencing the absent (`null`)
`originalRequest` holder would raise — the non-null assertion is
unreachable. -/
theorem claim9_no_fdf_no_null_deref
    (fetchFn : Req → Option FetchOpts → Except Err Response) (ev : Option EventW)
    (ps : List Plugin) (fo : Option FetchOpts) (r0 : Req) (nid : Nat)
    (hfdf : ∀ p ∈ ps, p.fetchDidFail = none) :
    failedFetchPluginsOf ps = [] ∧
    (wrappedFetch fetchFn ⟨.req r0, ev, ps, fo⟩ nid).1 ≠
      .err (.js (.crash .cloneNullOriginal)) ∧
    ∀ j a, Ev.fdfCall j a ∉ (wrappedFetch fetchFn ⟨.req r0, ev, ps, fo⟩ nid).2 := by
  have hffp : failedFetchPluginsOf ps = [] := by
    apply selectImplementing_eq_nil
    intro p hp
    simp [hasFetchDidFail, hfdf p hp]
  refine ⟨hffp, ?_⟩
  have hbody : ∀ x, (x = (wrappedFetch fetchFn ⟨.req r0, ev, ps, fo⟩ nid)) →
      x.1 ≠ .err (.js (.crash .cloneNullOriginal)) ∧
      ∀ j a, Ev.fdfCall j a ∉ x.2 := by
    intro x hx
    have hx2 : x = wrappedFetchCore fetchFn ev ps fo r0 nid := hx
    rcases hplc : preloadShortCircuit ev with _ | resp
    · rcases hr : runRWF ev 0 ps (some r0) (nidAfterSnapshot ps nid) [] with ⟨res, nid2, tr0⟩
      have htr0 : ∀ j a, Ev.fdfCall j a ∉ tr0 := by
        intro j a hmem
        have h22 : (runRWF ev 0 ps (some r0) (nidAfterSnapshot ps nid) []).2.2 = tr0 := by
          rw [hr]
        rw [← h22] at hmem
        rcases runRWF_trace_mem ev 0 ps (some r0) _ [] _ hmem with h | ⟨j2, a2, h⟩
        · simp at h
        · cases h
      rcases res with jerr | oreq
      · have : x = (.err (.wb (WorkboxError.make "plugin-error-request-will-fetch"
            ⟨some jerr⟩)), tr0) := by
          rw [hx2]
          exact wrappedFetchCore_preflight_error fetchFn ev ps fo r0 nid nid2 tr0 jerr hplc hr
        rw [this]
        exact ⟨by simp, fun j a hm => htr0 j a hm⟩
      · rcases oreq with _ | r
        · have : x = (.err (.js (.crash .cloneUndefined)), tr0) := by
            rw [hx2]
            simp only [wrappedFetchCore, hplc, hr]
          rw [this]
          exact ⟨by simp, fun j a hm => htr0 j a hm⟩
        · have hx3 : x = afterPreflight fetchFn ev ps fo (originalRequestOf ps r0 nid)
              r nid2 tr0 := by
            rw [hx2]
            exact wrappedFetchCore_preflight_ok fetchFn ev ps fo r0 r nid nid2 tr0 hplc hr
          rw [hx3]
          simp only [afterPreflight, hffp]
          rcases hf : fetchFn r (if r.val.mode == "navigate" then none else fo)
            with efetch | resp0
          · simp only [runFailurePath, runFDF]
            constructor
            · simp
            · intro j a hm
              simp only [List.mem_append, List.mem_singleton] at hm
              rcases hm with hm | hm
              · exact htr0 j a hm
              · cases hm
          · rcases hfds0 : runFDS ev ⟨nid2, r.val⟩ 0 ps (some resp0)
                (tr0 ++ [Ev.fetchCall r (if r.val.mode == "navigate" then none else fo)])
              with ⟨res2, tr2⟩
            have htr2 : ∀ j a, Ev.fdfCall j a ∉ tr2 := by
              intro j a hmem
              have h2 : (runFDS ev ⟨nid2, r.val⟩ 0 ps (some resp0)
                  (tr0 ++ [Ev.fetchCall r
                    (if r.val.mode == "navigate" then none else fo)])).2 = tr2 := by
                rw [hfds0]
              rw [← h2] at hmem
              rcases runFDS_trace_mem ev ⟨nid2, r.val⟩ 0 ps (some resp0) _ _ hmem
                with h | ⟨j2, a2, h⟩
              · simp only [List.mem_append, List.mem_singleton] at h
                rcases h with h | h
                · exact htr0 j a h
                · cases h
              · cases h
            rcases res2 with e2 | respF
            · simp only [hfds0, runFailurePath, runFDF]
              exact ⟨by simp, fun j a hm => htr2 j a hm⟩
            · simp only [hfds0]
              exact ⟨by simp, fun j a hm => htr2 j a hm⟩
    · have : x = (.ok (some resp), []) := by
        rw [hx2]
        simp only [wrappedFetchCore, hplc]
      rw [this]
      exact ⟨by simp, by intro j a hm; simp at hm⟩
  exact hbody _ rfl

theorem claim1_rwf_chain_witness :
    (([⟨100, ⟨"a", "cors"⟩⟩, ⟨101, ⟨"b", "cors"⟩⟩] : List Req) ≠ [] ∧
      (⟨0, ⟨"u", "cors"⟩⟩ : Req).id < 200 ∧
      ∀ r ∈ ([⟨100, ⟨"a", "cors"⟩⟩, ⟨101, ⟨"b", "cors"⟩⟩] : List Req), r.id < 200) ∧
    (wrappedFetch (fun _ _ => .ok ⟨7⟩)
        ⟨.req ⟨0, ⟨"u", "cors"⟩⟩, none,
         ([⟨100, ⟨"a", "cors"⟩⟩, ⟨101, ⟨"b", "cors"⟩⟩] : List Req).map rwfReplacePlugin,
         some ⟨5⟩⟩ 200 =
      (.ok (some ⟨7⟩),
       rwfChainTrace none ⟨0, ⟨"u", "cors"⟩⟩
           [⟨100, ⟨"a", "cors"⟩⟩, ⟨101, ⟨"b", "cors"⟩⟩] 0 200 ++
         [Ev.fetchCall
           (([⟨100, ⟨"a", "cors"⟩⟩, ⟨101, ⟨"b", "cors"⟩⟩] : List Req).getLastD
             ⟨0, ⟨"u", "cors"⟩⟩)
           (if (([⟨100, ⟨"a", "cors"⟩⟩, ⟨101, ⟨"b", "cors"⟩⟩] : List Req).getLastD
               ⟨0, ⟨"u", "cors"⟩⟩).val.mode == "navigate" then none
            else some ⟨5⟩)]) ∧
     ∀ i, i < ([⟨100, ⟨"a", "cors"⟩⟩, ⟨101, ⟨"b", "cors"⟩⟩] : List Req).length →
       200 + i ≠
         (rwfPrevReq ⟨0, ⟨"u", "cors"⟩⟩ [⟨100, ⟨"a", "cors"⟩⟩, ⟨101, ⟨"b", "cors"⟩⟩] i).id) :=
  ⟨⟨by decide, by decide, by decide⟩,
   claim1_rwf_chain ⟨0, ⟨"u", "cors"⟩⟩ [⟨100, ⟨"a", "cors"⟩⟩, ⟨101, ⟨"b", "cors"⟩⟩] ⟨7⟩
     (some ⟨5⟩) 200 (by decide) (by decide) (by decide)⟩

theorem claim2_failure_chain_witness :
    (preloadShortCircuit none = none ∧
      runRWF none 0 [{ fetchDidSucceed := some (fun _ => Except.error ⟨3⟩) },
          { fetchDidFail := some (fun _ => Except.ok ()) }]
          (some ⟨0, ⟨"u", "cors"⟩⟩)
          (nidAfterSnapshot [{ fetchDidSucceed := some (fun _ => Except.error ⟨3⟩) },
            { fetchDidFail := some (fun _ => Except.ok ()) }] 1) [] =
        (.ok (some ⟨0, ⟨"u", "cors"⟩⟩), 2, []) ∧
      tryBlockFails (fun _ _ => .ok ⟨7⟩) none
        [{ fetchDidSucceed := some (fun _ => Except.error ⟨3⟩) },
         { fetchDidFail := some (fun _ => Except.ok ()) }] none
        ⟨0, ⟨"u", "cors"⟩⟩ 2 [] ⟨3⟩
        [Ev.fetchCall ⟨0, ⟨"u", "cors"⟩⟩ none,
         Ev.fdsCall 0 ⟨none, ⟨2, ⟨"u", "cors"⟩⟩, some ⟨7⟩⟩]) ∧
    wrappedFetch (fun _ _ => .ok ⟨7⟩)
        ⟨.req ⟨0, ⟨"u", "cors"⟩⟩, none,
         [{ fetchDidSucceed := some (fun _ => Except.error ⟨3⟩) },
          { fetchDidFail := some (fun _ => Except.ok ()) }], none⟩ 1 =
      (.err (.js (.user ⟨3⟩)),
       [Ev.fetchCall ⟨0, ⟨"u", "cors"⟩⟩ none,
        Ev.fdsCall 0 ⟨none, ⟨2, ⟨"u", "cors"⟩⟩, some ⟨7⟩⟩] ++
         fdfChainTrace none ⟨3⟩ (⟨0, ⟨"u", "cors"⟩⟩ : Req).val
           (⟨0, ⟨"u", "cors"⟩⟩ : Req).val
           (failedFetchPluginsOf
             [{ fetchDidSucceed := some (fun _ => Except.error ⟨3⟩) },
              { fetchDidFail := some (fun _ => Except.ok ()) }]) (2 + 1)) :=
  ⟨⟨rfl, rfl, Or.inr ⟨⟨7⟩, rfl, rfl⟩⟩,
   claim2_failure_chain (fun _ _ => .ok ⟨7⟩) none
     [{ fetchDidSucceed := some (fun _ => Except.error ⟨3⟩) },
      { fetchDidFail := some (fun _ => Except.ok ()) }] none
     ⟨0, ⟨"u", "cors"⟩⟩ ⟨0, ⟨"u", "cors"⟩⟩ 1 2 []
     [Ev.fetchCall ⟨0, ⟨"u", "cors"⟩⟩ none,
      Ev.fdsCall 0 ⟨none, ⟨2, ⟨"u", "cors"⟩⟩, some ⟨7⟩⟩] ⟨3⟩ rfl rfl
     (Or.inr ⟨⟨7⟩, rfl, rfl⟩)
     (by
       intro ip hip f hf a
       have hip2 : ip = (1, { fetchDidFail := some (fun _ => Except.ok ()) }) := by
         rw [show failedFetchPluginsOf
             [{ fetchDidSucceed := some (fun _ => Except.error ⟨3⟩) },
              { fetchDidFail := some (fun _ => Except.ok ()) }] =
             [(1, { fetchDidFail := some (fun _ => Except.ok ()) })] from rfl] at hip
         simpa using hip
       subst hip2
       injection hf with hf2
       subst hf2
       rfl)⟩

theorem claim3_rwf_throw_wrapped_witness :
    (preloadShortCircuit none = none ∧
      runRWF none 0 [{ requestWillFetch := some (fun _ => Except.error ⟨5⟩) }]
          (some ⟨0, ⟨"u", "cors"⟩⟩)
          (nidAfterSnapshot [{ requestWillFetch := some (fun _ => Except.error ⟨5⟩) }] 1) [] =
        (.error (.user ⟨5⟩), 2, [Ev.rwfCall 0 ⟨⟨1, ⟨"u", "cors"⟩⟩, none⟩])) ∧
    (wrappedFetch (fun _ _ => .ok ⟨7⟩)
        ⟨.req ⟨0, ⟨"u", "cors"⟩⟩, none,
         [{ requestWillFetch := some (fun _ => Except.error ⟨5⟩) }], none⟩ 1 =
      (.err (.wb (WorkboxError.make "plugin-error-request-will-fetch" ⟨some (.user ⟨5⟩)⟩)),
       [Ev.rwfCall 0 ⟨⟨1, ⟨"u", "cors"⟩⟩, none⟩]) ∧
     (∀ q oo, Ev.fetchCall q oo ∉ [Ev.rwfCall 0 ⟨⟨1, ⟨"u", "cors"⟩⟩, none⟩]) ∧
     ∀ j a, Ev.fdfCall j a ∉ [Ev.rwfCall 0 ⟨⟨1, ⟨"u", "cors"⟩⟩, none⟩]) :=
  ⟨⟨rfl, rfl⟩,
   claim3_rwf_throw_wrapped (fun _ _ => .ok ⟨7⟩) none
     [{ requestWillFetch := some (fun _ => Except.error ⟨5⟩) }] none
     ⟨0, ⟨"u", "cors"⟩⟩ 1 2 [Ev.rwfCall 0 ⟨⟨1, ⟨"u", "cors"⟩⟩, none⟩] ⟨5⟩ rfl rfl⟩

theorem claim6_fds_replacement_propagates_witness :
    ([⟨70⟩, ⟨71⟩] : List Response) ≠ [] ∧
    wrappedFetch (fun _ _ => .ok ⟨7⟩)
        ⟨.req ⟨0, ⟨"u", "cors"⟩⟩, none,
         ([⟨70⟩, ⟨71⟩] : List Response).map fdsReplacePlugin, some ⟨5⟩⟩ 9 =
      (.ok (some (([⟨70⟩, ⟨71⟩] : List Response).getLastD ⟨7⟩)),
       Ev.fetchCall ⟨0, ⟨"u", "cors"⟩⟩
           (if (⟨0, ⟨"u", "cors"⟩⟩ : Req).val.mode == "navigate" then none else some ⟨5⟩) ::
         fdsChainTrace none ⟨9, (⟨0, ⟨"u", "cors"⟩⟩ : Req).val⟩ (some ⟨7⟩)
           [⟨70⟩, ⟨71⟩] 0) :=
  ⟨by decide,
   claim6_fds_replacement_propagates ⟨0, ⟨"u", "cors"⟩⟩ ⟨7⟩ [⟨70⟩, ⟨71⟩] (some ⟨5⟩) 9
     (by decide)⟩

theorem claim7_navigate_ignores_options_witness :
    (preloadShortCircuit none = none ∧
      runRWF none 0 [] (some ⟨0, ⟨"u", "navigate"⟩⟩) (nidAfterSnapshot [] 4) [] =
        (.ok (some ⟨0, ⟨"u", "navigate"⟩⟩), 4, [])) ∧
    ∃ rest, (wrappedFetch (fun _ _ => .ok ⟨7⟩)
        ⟨.req ⟨0, ⟨"u", "navigate"⟩⟩, none, [], some ⟨5⟩⟩ 4).2 =
      [] ++ Ev.fetchCall ⟨0, ⟨"u", "navigate"⟩⟩
          (if (⟨0, ⟨"u", "navigate"⟩⟩ : Req).val.mode == "navigate" then none
           else some ⟨5⟩) :: rest :=
  ⟨⟨rfl, rfl⟩,
   claim7_navigate_ignores_options (fun _ _ => .ok ⟨7⟩) none [] (some ⟨5⟩)
     ⟨0, ⟨"u", "navigate"⟩⟩ ⟨0, ⟨"u", "navigate"⟩⟩ 4 4 [] rfl rfl⟩

theorem claim8_fdf_throw_preempts_witness :
    (preloadShortCircuit none = none ∧
      runRWF none 0 [{ fetchDidFail := some (fun _ => Except.error ⟨9⟩) }]
          (some ⟨0, ⟨"u", "cors"⟩⟩)
          (nidAfterSnapshot [{ fetchDidFail := some (fun _ => Except.error ⟨9⟩) }] 1) [] =
        (.ok (some ⟨0, ⟨"u", "cors"⟩⟩), 2, []) ∧
      (fun (_ : Req) (_ : Option FetchOpts) => (Except.error ⟨3⟩ : Except Err Response))
          ⟨0, ⟨"u", "cors"⟩⟩
          (if (⟨0, ⟨"u", "cors"⟩⟩ : Req).val.mode == "navigate" then none else none) =
        .error ⟨3⟩ ∧
      failedFetchPluginsOf [{ fetchDidFail := some (fun _ => Except.error ⟨9⟩) }] =
        [] ++ (0, { fetchDidFail := some (fun _ => Except.error ⟨9⟩) }) :: [] ∧
      Plugin.fetchDidFail { fetchDidFail := some (fun _ => Except.error ⟨9⟩) } =
        some (fun _ => Except.error ⟨9⟩) ∧
      ∀ a, (fun (_ : FDFArgs) => (Except.error ⟨9⟩ : Except Err Unit)) a = .error ⟨9⟩) ∧
    wrappedFetch (fun _ _ => .error ⟨3⟩)
        ⟨.req ⟨0, ⟨"u", "cors"⟩⟩, none,
         [{ fetchDidFail := some (fun _ => Except.error ⟨9⟩) }], none⟩ 1 =
      (.err (.js (.user ⟨9⟩)),
       [] ++ Ev.fetchCall ⟨0, ⟨"u", "cors"⟩⟩
           (if (⟨0, ⟨"u", "cors"⟩⟩ : Req).val.mode == "navigate" then none else none) ::
         fdfChainTrace none ⟨3⟩ (⟨0, ⟨"u", "cors"⟩⟩ : Req).val (⟨0, ⟨"u", "cors"⟩⟩ : Req).val
           ([] ++ [(0, { fetchDidFail := some (fun _ => Except.error ⟨9⟩) })]) (2 + 1)) :=
  ⟨⟨rfl, rfl, rfl, rfl, rfl, fun _ => rfl⟩,
   claim8_fdf_throw_preempts (fun _ _ => .error ⟨3⟩) none
     [{ fetchDidFail := some (fun _ => Except.error ⟨9⟩) }] none
     ⟨0, ⟨"u", "cors"⟩⟩ ⟨0, ⟨"u", "cors"⟩⟩ 1 2 [] ⟨3⟩ ⟨9⟩ 0
     { fetchDidFail := some (fun _ => Except.error ⟨9⟩) } (fun _ => Except.error ⟨9⟩)
     [] [] rfl rfl rfl rfl
     (fun ip hip => absurd hip (List.not_mem_nil ip)) rfl (fun _ => rfl)⟩

theorem claim9_no_fdf_no_null_deref_witness :
    (∀ p ∈ ([] : List Plugin), p.fetchDidFail = none) ∧
    (failedFetchPluginsOf [] = [] ∧
     (wrappedFetch (fun _ _ => .ok ⟨7⟩) ⟨.req ⟨0, ⟨"u", "cors"⟩⟩, none, [], none⟩ 1).1 ≠
       .err (.js (.crash .cloneNullOriginal)) ∧
     ∀ j a, Ev.fdfCall j a ∉
       (wrappedFetch (fun _ _ => .ok ⟨7⟩) ⟨.req ⟨0, ⟨"u", "cors"⟩⟩, none, [], none⟩ 1).2) :=
  ⟨fun p hp => absurd hp (List.not_mem_nil p),
   claim9_no_fdf_no_null_deref (fun _ _ => .ok ⟨7⟩) none [] none ⟨0, ⟨"u", "cors"⟩⟩ 1
     (fun p hp => absurd hp (List.not_mem_nil p))⟩

end Workbox
